import Mathlib

set_option maxHeartbeats 1000000

/-!
Shallow embedding of `dialogue/dialogue.py` (a Python 2 branching-dialogue
interpreter).  The Python source's variable store is a `defaultdict(int)`
whose values can be an int or `None`; Python 2 ordering makes every int
compare greater than `None`, and mixed arithmetic with `None` raises
`TypeError`.  Fallible Python code is modelled with `Except` / explicit
error fields; the in-place mutation of stores, `Effect` instances (operand
memoization) and the `Dialogue` object is modelled by returning the updated
values explicitly.
-/

/-- A value held in the dialogue variable store: a Python int or `None`. -/
inductive PyVal where
  | int (n : Int)
  | none
  deriving DecidableEq

/-- Runtime errors the Python expression code can raise:
`ValueError` (the explicit `raise` in `Condition.apply`), `TypeError`
(calling the `None` returned by `dict.get` on an unknown operation, or
arithmetic on `None`), and errors escaping the `eval` call. -/
inductive PyErr where
  | valueError
  | typeError
  | evalError
  deriving DecidableEq

/-- The variable store (`self.globals`, a `defaultdict(int)`): a total map
where a key that was never written reads as `PyVal.int 0`. -/
def Store : Type := String → PyVal

/-- The store of a fresh `defaultdict(int)` with no writes. -/
def store0 : Store := fun _ => PyVal.int 0

/-- `globals[k] = v` on the store. -/
def storeSet (g : Store) (k : String) (v : PyVal) : Store :=
  fun w => if w = k then v else g w

/-- Python 2 `<` on store values: `None` is less than every int. -/
def py2lt : PyVal → PyVal → Bool
  | PyVal.none, PyVal.none => false
  | PyVal.none, PyVal.int _ => true
  | PyVal.int _, PyVal.none => false
  | PyVal.int a, PyVal.int b => decide (a < b)

/-- Python 2 `==` on store values. -/
def py2eq : PyVal → PyVal → Bool
  | PyVal.none, PyVal.none => true
  | PyVal.int a, PyVal.int b => decide (a = b)
  | _, _ => false

/-- Python 2 `>` on store values. -/
def py2gt (a b : PyVal) : Bool := py2lt b a

/-- Python 2 `>=` on store values. -/
def py2ge (a b : PyVal) : Bool := !py2lt a b

/-- Python 2 `<=` on store values. -/
def py2le (a b : PyVal) : Bool := !py2lt b a

/-- `Condition.__init__`: `variable` (field `var` here, since `variable` is a
Lean keyword), `operation`, and `value` (defaulting to `None` when the key is
absent from the authoring dict). -/
structure Condition where
  var : String
  operation : String
  value : PyVal
  deriving DecidableEq

/-- `Condition.apply(self, globals)`: reads `globals[self.variable]`, raises
`ValueError` when the operation is not `set`/`unset` and the value READ FROM
THE STORE is `None`, then dispatches on the operation string; an operation
missing from the dispatch dict means `.get` returns `None` and calling it
raises `TypeError`. -/
def Condition.apply (c : Condition) (g : Store) : Except PyErr Bool :=
  if ¬(c.operation = "set" ∨ c.operation = "unset") ∧ g c.var = PyVal.none then
    Except.error PyErr.valueError
  else if c.operation = ">" then Except.ok (py2gt (g c.var) c.value)
  else if c.operation = "<" then Except.ok (py2lt (g c.var) c.value)
  else if c.operation = "=" then Except.ok (py2eq (g c.var) c.value)
  else if c.operation = "==" then Except.ok (py2eq (g c.var) c.value)
  else if c.operation = ">=" then Except.ok (py2ge (g c.var) c.value)
  else if c.operation = "<=" then Except.ok (py2le (g c.var) c.value)
  else if c.operation = "set" then Except.ok (py2eq (g c.var) (PyVal.int 1))
  else if c.operation = "unset" then Except.ok (py2eq (g c.var) (PyVal.int 0))
  else Except.error PyErr.typeError

/-- The `value` attribute of an `Effect`: an int, a string (either an
`eval:`-prefixed expression or the name of another store variable), or
`None` (absent key). -/
inductive EValue where
  | int (n : Int)
  | str (s : String)
  | none
  deriving DecidableEq

/-- `Effect.__init__`: `variable` (field `var`), `operation`, `value`. -/
structure Effect where
  var : String
  operation : String
  value : EValue
  deriving DecidableEq

/-- Tokens of the arithmetic expression language accepted after `eval:`. -/
inductive Tok where
  | num (n : Int)
  | ident (s : String)
  | plus
  | minus
  | star
  | slash
  | lpar
  | rpar
  deriving DecidableEq

/-- Consume a run of digits, accumulating the decimal value. -/
def lexNum : Int → List Char → Int × List Char
  | acc, c :: cs =>
    if c.isDigit then lexNum (acc * 10 + (Int.ofNat (c.toNat - 48))) cs
    else (acc, c :: cs)
  | acc, [] => (acc, [])

/-- Consume a run of identifier characters (accumulator holds them reversed). -/
def lexIdent : List Char → List Char → List Char × List Char
  | acc, c :: cs =>
    if c.isAlpha ∨ c.isDigit ∨ c = '_' then lexIdent (c :: acc) cs
    else (acc, c :: cs)
  | acc, [] => (acc, [])

/-- Fuel-indexed tokenizer for the `eval:` arithmetic language. -/
def tokenizeF : Nat → List Char → Option (List Tok)
  | 0, _ => Option.none
  | _ + 1, [] => Option.some []
  | f + 1, c :: cs =>
    if c.isDigit then
      let p := lexNum (Int.ofNat (c.toNat - 48)) cs
      (tokenizeF f p.2).map (fun ts => Tok.num p.1 :: ts)
    else if c.isAlpha ∨ c = '_' then
      let p := lexIdent [c] cs
      (tokenizeF f p.2).map (fun ts => Tok.ident (String.mk p.1.reverse) :: ts)
    else if c = ' ' then tokenizeF f cs
    else if c = '+' then (tokenizeF f cs).map (fun ts => Tok.plus :: ts)
    else if c = '-' then (tokenizeF f cs).map (fun ts => Tok.minus :: ts)
    else if c = '*' then (tokenizeF f cs).map (fun ts => Tok.star :: ts)
    else if c = '/' then (tokenizeF f cs).map (fun ts => Tok.slash :: ts)
    else if c = '(' then (tokenizeF f cs).map (fun ts => Tok.lpar :: ts)
    else if c = ')' then (tokenizeF f cs).map (fun ts => Tok.rpar :: ts)
    else Option.none

mutual

/-- Parse an expression: a term followed by `+`/`-` continuations. -/
def parseExpr (g : Store) : Nat → List Tok → Option (Int × List Tok)
  | 0, _ => Option.none
  | f + 1, ts =>
    match parseTerm g f ts with
    | Option.none => Option.none
    | Option.some (v, ts1) => parseExprRest g f v ts1

/-- Fold `+ term` / `- term` continuations left-associatively. -/
def parseExprRest (g : Store) : Nat → Int → List Tok → Option (Int × List Tok)
  | 0, _, _ => Option.none
  | f + 1, acc, Tok.plus :: ts =>
    match parseTerm g f ts with
    | Option.none => Option.none
    | Option.some (v, ts1) => parseExprRest g f (acc + v) ts1
  | f + 1, acc, Tok.minus :: ts =>
    match parseTerm g f ts with
    | Option.none => Option.none
    | Option.some (v, ts1) => parseExprRest g f (acc - v) ts1
  | _ + 1, acc, ts => Option.some (acc, ts)

/-- Parse a term: a factor followed by `*`/`/` continuations. -/
def parseTerm (g : Store) : Nat → List Tok → Option (Int × List Tok)
  | 0, _ => Option.none
  | f + 1, ts =>
    match parseFactor g f ts with
    | Option.none => Option.none
    | Option.some (v, ts1) => parseTermRest g f v ts1

/-- Fold `* factor` / `/ factor` continuations; `/` is Python 2 floor
division and fails on a zero divisor. -/
def parseTermRest (g : Store) : Nat → Int → List Tok → Option (Int × List Tok)
  | 0, _, _ => Option.none
  | f + 1, acc, Tok.star :: ts =>
    match parseFactor g f ts with
    | Option.none => Option.none
    | Option.some (v, ts1) => parseTermRest g f (acc * v) ts1
  | f + 1, acc, Tok.slash :: ts =>
    match parseFactor g f ts with
    | Option.none => Option.none
    | Option.some (v, ts1) =>
      if v = 0 then Option.none else parseTermRest g f (Int.fdiv acc v) ts1
  | _ + 1, acc, ts => Option.some (acc, ts)

/-- Parse a factor: numeric literal, store-variable lookup, or
parenthesized expression. -/
def parseFactor (g : Store) : Nat → List Tok → Option (Int × List Tok)
  | 0, _ => Option.none
  | _ + 1, Tok.num n :: ts => Option.some (n, ts)
  | _ + 1, Tok.ident s :: ts =>
    match g s with
    | PyVal.int n => Option.some (n, ts)
    | PyVal.none => Option.none
  | f + 1, Tok.lpar :: ts =>
    match parseExpr g f ts with
    | Option.some (v, Tok.rpar :: ts2) => Option.some (v, ts2)
    | _ => Option.none
  | _ + 1, _ => Option.none

end

/-- Modelled from the spec: the Python builtin `eval` applied to the text
after the `eval:` marker is not part of this repository; the spec describes
it as a narrow arithmetic-expression evaluator over `+ - * / ( )`, numeric
literals and store-variable lookups, evaluated against the current store
snapshot.  `Option.none` models the evaluation raising. -/
def pyEval (g : Store) (s : String) : Option Int :=
  match tokenizeF (s.length + 1) s.toList with
  | Option.none => Option.none
  | Option.some ts =>
    match parseExpr g (2 * ts.length + 4) ts with
    | Option.some (v, []) => Option.some v
    | _ => Option.none

/-- `unicode.startswith` on the underlying character lists. -/
def charsStarts : List Char → List Char → Bool
  | _, [] => true
  | [], _ :: _ => false
  | c :: cs, d :: ds => c = d && charsStarts cs ds

/-- `s.startswith(pre)`. -/
def strStarts (s pre : String) : Bool :=
  charsStarts s.toList pre.toList

/-- `s[n:]` (drop the first `n` characters). -/
def strDrop (s : String) (n : Nat) : String :=
  String.mk (s.toList.drop n)

/-- Result of one `Effect.apply` call: the (possibly memoized) effect
instance, the resulting store, whether the `eval` branch ran, and the
error raised (if any). -/
structure EffApplyResult where
  eff : Effect
  store : Store
  evalInvoked : Bool
  err : Option PyErr

/-- The mutation dispatch dict of `Effect.apply`, applied to the current
store value; `+`/`-` on a non-int raise `TypeError` (Python 2), an unknown
operation means `.get` returned `None` and calling it raises `TypeError`. -/
def pyMutation (op : String) (v : PyVal) (cur : PyVal) : Except PyErr PyVal :=
  if op = "+" then
    match cur, v with
    | PyVal.int a, PyVal.int b => Except.ok (PyVal.int (a + b))
    | _, _ => Except.error PyErr.typeError
  else if op = "-" then
    match cur, v with
    | PyVal.int a, PyVal.int b => Except.ok (PyVal.int (a - b))
    | _, _ => Except.error PyErr.typeError
  else if op = "=" then Except.ok v
  else if op = "set" then Except.ok (PyVal.int 1)
  else if op = "unset" then Except.ok (PyVal.int 0)
  else Except.error PyErr.typeError

/-- The mutation step of `Effect.apply` after operand resolution:
`globals[self.variable] = mutation(globals[self.variable])`. -/
def mutStep (e : Effect) (v : PyVal) (g : Store) (ev : Bool) : EffApplyResult :=
  match pyMutation e.operation v (g e.var) with
  | Except.ok newv => ⟨e, storeSet g e.var newv, ev, Option.none⟩
  | Except.error er => ⟨e, g, ev, Option.some er⟩

/-- `Effect.apply(self, globals)`: if `self.value` is a string it is resolved
once — `eval:`-prefixed text through `eval`, otherwise a store lookup — and
the result is memoized onto `self.value`; then the operation mutates
`globals[self.variable]`. -/
def Effect.applyE (e : Effect) (g : Store) : EffApplyResult :=
  match e.value with
  | EValue.str s =>
    if strStarts s "eval:" then
      match pyEval g (strDrop s 5) with
      | Option.some n => mutStep { e with value := EValue.int n } (PyVal.int n) g true
      | Option.none => ⟨e, g, true, Option.some PyErr.evalError⟩
    else
      match g s with
      | PyVal.int n => mutStep { e with value := EValue.int n } (PyVal.int n) g false
      | PyVal.none => mutStep { e with value := EValue.none } PyVal.none g false
  | EValue.int n => mutStep e (PyVal.int n) g false
  | EValue.none => mutStep e PyVal.none g false

example : pyEval store0 "2+3*4" = Option.some 14 := by decide
example : pyEval store0 "(1+2)*3" = Option.some 9 := by decide

/-- `Response.__init__`: text, preconditions, effects, and the ordered
transition list of `(target, conditions)` pairs. -/
structure Response where
  text : String
  preconditions : List Condition
  effects : List Effect
  transitions : List (Int × List Condition)
  deriving DecidableEq

/-- `Prompt.__init__`: id, display payload (list of `(speaker, text)`
pairs), and the ordered response list. -/
structure Prompt where
  id : Int
  texts : List (String × String)
  responses : List Response
  deriving DecidableEq

/-- The Python list comprehension `[cond.apply(globals) for cond in cs]`:
every condition is evaluated, the first raise propagates. -/
def evalConds (g : Store) : List Condition → Except PyErr (List Bool)
  | [] => Except.ok []
  | c :: cs =>
    match Condition.apply c g, evalConds g cs with
    | Except.error e, _ => Except.error e
    | Except.ok _, Except.error e => Except.error e
    | Except.ok b, Except.ok bs => Except.ok (b :: bs)

/-- `all([cond.apply(globals) for cond in cs])`. -/
def condsAll (g : Store) (cs : List Condition) : Except PyErr Bool :=
  (evalConds g cs).map (fun bs => bs.all id)

/-- The loop of `Response.get_next`: first transition whose condition set
is entirely true wins; `-1` if none matches. -/
def getNextGo (g : Store) : List (Int × List Condition) → Except PyErr Int
  | [] => Except.ok (-1)
  | (target, conds) :: rest =>
    match condsAll g conds with
    | Except.error e => Except.error e
    | Except.ok true => Except.ok target
    | Except.ok false => getNextGo g rest

/-- `Response.get_next(self, globals)`. -/
def Response.get_next (r : Response) (g : Store) : Except PyErr Int :=
  getNextGo g r.transitions

/-- Result of `Response.apply_effects`: the memoized effect list, the
resulting store, and the first error raised (later effects unapplied). -/
structure EffsResult where
  effs : List Effect
  store : Store
  err : Option PyErr

/-- Sequential effect application (`for effect in self.effects`): each
effect sees the store mutations of the previous ones; the first raise
stops the loop with earlier mutations kept. -/
def applyEffectsGo : Store → List Effect → EffsResult
  | g, [] => ⟨[], g, Option.none⟩
  | g, e :: rest =>
    let r := Effect.applyE e g
    match r.err with
    | Option.some er => ⟨r.eff :: rest, r.store, Option.some er⟩
    | Option.none =>
      let rr := applyEffectsGo r.store rest
      ⟨r.eff :: rr.effs, rr.store, rr.err⟩

/-- Result of `Response.apply_effects` at the response level. -/
structure RespResult where
  resp : Response
  store : Store
  err : Option PyErr

/-- `Response.apply_effects(self, globals)`; the returned response carries
the memoized effect instances (Python mutates them in place). -/
def Response.apply_effectsE (r : Response) (g : Store) : RespResult :=
  let er := applyEffectsGo g r.effects
  ⟨{ r with effects := er.effs }, er.store, er.err⟩

/-- The list comprehension of `Prompt.get_responses`: texts of responses
whose preconditions all hold, in declared order. -/
def getResponsesGo (g : Store) : List Response → Except PyErr (List String)
  | [] => Except.ok []
  | r :: rest =>
    match condsAll g r.preconditions with
    | Except.error e => Except.error e
    | Except.ok true => (getResponsesGo g rest).map (fun l => r.text :: l)
    | Except.ok false => getResponsesGo g rest

/-- `Prompt.get_responses(self, globals)`. -/
def Prompt.get_responses (p : Prompt) (g : Store) : Except PyErr (List String) :=
  getResponsesGo g p.responses

/-- `Prompt.get_prompt(self)`. -/
def Prompt.get_prompt (p : Prompt) : List (String × String) :=
  p.texts

/-- Errors observable from `Dialogue` methods: answering a finished dialog
(`raise Exception(...)`), a missing prompt id (`KeyError`), an out-of-range
response index (`IndexError`), or a propagated expression error. -/
inductive DlgError where
  | sessionFinished
  | keyError
  | indexError
  | pyErr (e : PyErr)
  deriving DecidableEq

/-- Lookup in the `self.prompts` dict (insertion-ordered association list
with unique keys). -/
def promptsLookup : List (Int × Prompt) → Int → Option Prompt
  | [], _ => Option.none
  | (k, p) :: rest, k2 => if k2 = k then Option.some p else promptsLookup rest k2

/-- Dict insertion: replace the entry for an existing key, else append. -/
def dictInsert : List (Int × Prompt) → Int → Prompt → List (Int × Prompt)
  | [], k, v => [(k, v)]
  | (k2, v2) :: rest, k, v =>
    if k2 = k then (k, v) :: rest else (k2, v2) :: dictInsert rest k v

/-- The `Dialogue` session object: variable store, prompt table, current
prompt id, and the completion flag. -/
structure Dialogue where
  globals : Store
  prompts : List (Int × Prompt)
  current_prompt : Int
  done : Bool

/-- The authoring document passed to `Dialogue.__init__`. -/
structure PromptDict where
  defaults : List (String × Int)
  prompts : List Prompt

/-- `defaultdict(int)` updated with the author-supplied integer defaults. -/
def initStore (defaults : List (String × Int)) : Store :=
  defaults.foldl (fun g kv => storeSet g kv.1 (PyVal.int kv.2)) store0

/-- `Dialogue._create_prompts`: insert each prompt under its id. -/
def buildPrompts (ps : List Prompt) : List (Int × Prompt) :=
  ps.foldl (fun acc p => dictInsert acc p.id p) []

/-- `Dialogue.__init__(self, prompt_dict)`: store from defaults, prompt
table, `current_prompt = 0`, `done = False`. -/
def Dialogue.init (doc : PromptDict) : Dialogue :=
  ⟨initStore doc.defaults, buildPrompts doc.prompts, 0, false⟩

/-- `Dialogue.is_done(self)`. -/
def Dialogue.is_done (d : Dialogue) : Bool :=
  d.done

/-- `Dialogue.get_globals(self)`. -/
def Dialogue.get_globals (d : Dialogue) : Store :=
  d.globals

/-- `Dialogue.get_prompt(self)`: when not done, sets `done` when the
current prompt has no responses (and still returns its payload); when
done, returns `None`.  A missing current prompt id raises `KeyError`. -/
def Dialogue.get_prompt (d : Dialogue) :
    Dialogue × Except DlgError (Option (List (String × String))) :=
  if d.done = false then
    match promptsLookup d.prompts d.current_prompt with
    | Option.none => (d, Except.error DlgError.keyError)
    | Option.some p =>
      if p.responses.isEmpty then
        ({ d with done := true }, Except.ok (Option.some (Prompt.get_prompt p)))
      else (d, Except.ok (Option.some (Prompt.get_prompt p)))
  else (d, Except.ok Option.none)

/-- `Dialogue.get_responses(self)`: the filtered response texts, `None`
when done; mutates nothing (the state component is returned unchanged). -/
def Dialogue.get_responses (d : Dialogue) :
    Dialogue × Except DlgError (Option (List String)) :=
  if d.done = false then
    match promptsLookup d.prompts d.current_prompt with
    | Option.none => (d, Except.error DlgError.keyError)
    | Option.some p =>
      match Prompt.get_responses p d.globals with
      | Except.error e => (d, Except.error (DlgError.pyErr e))
      | Except.ok l => (d, Except.ok (Option.some l))
  else (d, Except.ok Option.none)

/-- The active-response list comprehension of `Dialogue.answer`, paired
with each active response's index in the raw response list (used below to
model Python's in-place effect memoization). -/
def activeListGo (g : Store) : Nat → List Response → Except PyErr (List (Nat × Response))
  | _, [] => Except.ok []
  | i, r :: rest =>
    match condsAll g r.preconditions with
    | Except.error e => Except.error e
    | Except.ok true => (activeListGo g (i + 1) rest).map (fun l => (i, r) :: l)
    | Except.ok false => activeListGo g (i + 1) rest

/-- The `active_responses` list of `Dialogue.answer`. -/
def activeList (g : Store) (rs : List Response) : Except PyErr (List (Nat × Response)) :=
  activeListGo g 0 rs

/-- Python list indexing with an `int` index: non-negative indices from the
front, negative indices from the back, `IndexError` (`Option.none`) outside
`[-len, len)`. -/
def pyIndex {α : Type} (xs : List α) (i : Int) : Option α :=
  if 0 ≤ i then xs.get? i.toNat
  else if 0 ≤ (xs.length : Int) + i then xs.get? ((xs.length : Int) + i).toNat
  else Option.none

/-- The tail of `Dialogue.answer` once the chosen response is selected:
apply its effects (mutating the store, and the response's effect instances
in place inside the prompt table), resolve the next prompt id, advance,
and set `done` on the `-1` sentinel. -/
def Dialogue.answerWith (d : Dialogue) (p : Prompt) (oc : Nat × Response) :
    Dialogue × Option DlgError :=
  match Response.apply_effectsE oc.2 d.globals with
  | ⟨resp2, g2, Option.some e⟩ =>
    ({ d with globals := g2,
              prompts := dictInsert d.prompts d.current_prompt
                { p with responses := p.responses.set oc.1 resp2 } },
     Option.some (DlgError.pyErr e))
  | ⟨resp2, g2, Option.none⟩ =>
    match Response.get_next resp2 g2 with
    | Except.error e =>
      ({ d with globals := g2,
                prompts := dictInsert d.prompts d.current_prompt
                  { p with responses := p.responses.set oc.1 resp2 } },
       Option.some (DlgError.pyErr e))
    | Except.ok nxt =>
      if nxt = -1 then
        ({ d with globals := g2,
                  prompts := dictInsert d.prompts d.current_prompt
                    { p with responses := p.responses.set oc.1 resp2 },
                  current_prompt := nxt, done := true }, Option.none)
      else
        ({ d with globals := g2,
                  prompts := dictInsert d.prompts d.current_prompt
                    { p with responses := p.responses.set oc.1 resp2 },
                  current_prompt := nxt }, Option.none)

/-- `Dialogue.answer(self, response_ix)`: raises on a finished dialog,
filters the active responses, indexes with Python list indexing, then
applies the chosen response (`Dialogue.answerWith`). -/
def Dialogue.answer (d : Dialogue) (ix : Int) : Dialogue × Option DlgError :=
  if d.done then (d, Option.some DlgError.sessionFinished)
  else
    match promptsLookup d.prompts d.current_prompt with
    | Option.none => (d, Option.some DlgError.keyError)
    | Option.some p =>
      match activeList d.globals p.responses with
      | Except.error e => (d, Option.some (DlgError.pyErr e))
      | Except.ok actives =>
        match pyIndex actives ix with
        | Option.none => (d, Option.some DlgError.indexError)
        | Option.some oc => Dialogue.answerWith d p oc

/-- True when the condition evaluated without raising. -/
def exceptIsOk : Except PyErr Bool → Bool
  | Except.ok _ => true
  | Except.error _ => false

/-- True when the condition evaluated to `True`. -/
def isOkTrue : Except PyErr Bool → Bool
  | Except.ok true => true
  | _ => false

/-- Written from the spec's words for the transition rule: scan the
transition list in declared order, return the target of the first entry
whose condition set is entirely true (an empty set matches
unconditionally), and `-1` when no entry matches. -/
def firstMatchSpec (g : Store) : List (Int × List Condition) → Int
  | [] => -1
  | (target, conds) :: rest =>
    if conds.all (fun c => isOkTrue (Condition.apply c g)) then target
    else firstMatchSpec g rest

/-- Written from the spec's words for `availableResponses`: the texts of
exactly those responses whose preconditions all evaluate true, in the
author-declared order. -/
def availableSpec (g : Store) (rs : List Response) : List String :=
  (rs.filter (fun r => r.preconditions.all (fun c => isOkTrue (Condition.apply c g)))).map
    Response.text

/-- Every transition target mentioned anywhere in the prompt table is the
`-1` sentinel or a valid key of the table. -/
def targetsOkP (ps : List (Int × Prompt)) : Prop :=
  ∀ kp ∈ ps, ∀ r ∈ kp.2.responses, ∀ t ∈ r.transitions,
    t.1 = -1 ∨ (promptsLookup ps t.1).isSome = true

/-- The session invariant of the claim: all transition targets resolve, and
while not done the current prompt id is a valid key of the prompt table. -/
def DlgInv (d : Dialogue) : Prop :=
  targetsOkP d.prompts ∧
    (d.done = false → (promptsLookup d.prompts d.current_prompt).isSome = true)

/-- Well-formedness of an authoring document: a prompt with id `0` exists,
and every transition target is `-1` or the id of some prompt. -/
def DocWF (doc : PromptDict) : Prop :=
  (∃ p ∈ doc.prompts, p.id = 0) ∧
    ∀ p ∈ doc.prompts, ∀ r ∈ p.responses, ∀ t ∈ r.transitions,
      t.1 = -1 ∨ ∃ p2 ∈ doc.prompts, p2.id = t.1

/-- Every value in the store is an int (no `None` was ever written). -/
def storeAllInt (g : Store) : Prop :=
  ∀ v, g v ≠ PyVal.none

/-- The `ValueError` branch of `Condition.apply` fires exactly when the
operation is not `set`/`unset` and the value read from the store is `None`;
the condition's own `value` field is never inspected by this check. -/
theorem cond_valueError_iff (c : Condition) (g : Store) :
    Condition.apply c g = Except.error PyErr.valueError ↔
      (¬(c.operation = "set" ∨ c.operation = "unset") ∧ g c.var = PyVal.none) := by
  unfold Condition.apply
  split_ifs with h1 h2 h3 h4 h5 h6 h7 h8 h9 <;> simp_all

/-- When every condition in the list evaluates without raising, the Python
`all(...)` comprehension returns the conjunction of the individual results. -/
theorem condsAll_ok (g : Store) (cs : List Condition)
    (h : ∀ c ∈ cs, exceptIsOk (Condition.apply c g) = true) :
    condsAll g cs = Except.ok (cs.all (fun c => isOkTrue (Condition.apply c g))) := by
  induction cs with
  | nil => rfl
  | cons c rest ih =>
    have hc := h c (List.mem_cons_self c rest)
    have hrest : ∀ x ∈ rest, exceptIsOk (Condition.apply x g) = true :=
      fun x hx => h x (List.mem_cons_of_mem c hx)
    have ihr := ih hrest
    unfold condsAll at ihr ⊢
    cases hcc : Condition.apply c g with
    | error e => rw [hcc] at hc; simp [exceptIsOk] at hc
    | ok b =>
      unfold evalConds
      rw [hcc]
      cases hvc : evalConds g rest with
      | error e => rw [hvc] at ihr; simp [Except.map] at ihr
      | ok bs =>
        rw [hvc] at ihr
        simp [Except.map] at ihr ⊢
        simp [List.all_cons, ihr, hcc, isOkTrue]
        cases b <;> simp

/-- `Effect.apply` writes only `globals[self.variable]`: every other store
key is untouched. -/
theorem applyE_other_var (e : Effect) (g : Store) (w : String) (hw : w ≠ e.var) :
    (Effect.applyE e g).store w = g w := by
  unfold Effect.applyE mutStep
  split <;> (try split) <;> (try split) <;> (try split) <;>
    simp_all [storeSet]

/-- Sequential effect application never writes a key that is not the
`variable` of one of the effects in the list. -/
theorem applyEffectsGo_other_var (es : List Effect) (g : Store) (w : String)
    (hw : ∀ e ∈ es, e.var ≠ w) :
    (applyEffectsGo g es).store w = g w := by
  induction es generalizing g with
  | nil => rfl
  | cons e rest ih =>
    have he : e.var ≠ w := hw e (List.mem_cons_self e rest)
    have hr : ∀ x ∈ rest, x.var ≠ w := fun x hx => hw x (List.mem_cons_of_mem e hx)
    unfold applyEffectsGo
    cases herr : (Effect.applyE e g).err with
    | some er => simp [herr, applyE_other_var e g w (Ne.symm he)]
    | none => simp [herr, ih _ hr, applyE_other_var e g w (Ne.symm he)]

/-- A store whose values are all ints, updated with an int, still has all
int values. -/
theorem storeAllInt_set (g : Store) (k : String) (n : Int) (h : storeAllInt g) :
    storeAllInt (storeSet g k (PyVal.int n)) := by
  intro v
  unfold storeSet
  split
  · simp
  · exact h v

/-- `initStore` never writes `None`: defaults are ints and absent keys read
as `0`. -/
theorem initStore_allInt (defaults : List (String × Int)) :
    storeAllInt (initStore defaults) := by
  unfold initStore
  have hgen : ∀ (l : List (String × Int)) (g : Store), storeAllInt g →
      storeAllInt (l.foldl (fun a kv => storeSet a kv.1 (PyVal.int kv.2)) g) := by
    intro l
    induction l with
    | nil => intro g hg; exact hg
    | cons kv rest ih =>
      intro g hg
      exact ih _ (storeAllInt_set g kv.1 kv.2 hg)
  exact hgen defaults store0 (fun v h => by simp [store0] at h)

/-- A key absent from the defaults list reads as `0` in the initial store. -/
theorem initStore_absent (defaults : List (String × Int)) (v : String)
    (h : ∀ kv ∈ defaults, kv.1 ≠ v) :
    initStore defaults v = PyVal.int 0 := by
  unfold initStore
  have hgen : ∀ (l : List (String × Int)) (g : Store), (∀ kv ∈ l, kv.1 ≠ v) →
      g v = PyVal.int 0 →
      (l.foldl (fun a kv => storeSet a kv.1 (PyVal.int kv.2)) g) v = PyVal.int 0 := by
    intro l
    induction l with
    | nil => intro g _ hg; exact hg
    | cons kv rest ih =>
      intro g hl hg
      have hk : kv.1 ≠ v := hl kv (List.mem_cons_self kv rest)
      have hr : ∀ x ∈ rest, x.1 ≠ v := fun x hx => hl x (List.mem_cons_of_mem kv hx)
      refine ih _ hr ?_
      simp [storeSet, hg, Ne.symm hk]
  exact hgen defaults store0 h rfl

/-- Python indexing returns `IndexError` exactly outside `[-len, len)`. -/
theorem pyIndex_eq_none_iff {α : Type} (xs : List α) (i : Int) :
    pyIndex xs i = Option.none ↔
      ((xs.length : Int) ≤ i ∨ i < -(xs.length : Int)) := by
  unfold pyIndex
  split_ifs with h1 h2
  · rw [List.get?_eq_none]
    omega
  · rw [List.get?_eq_none]
    omega
  · simp
    omega

/-- A negative index `-k` with `1 ≤ k ≤ len` indexes the `k`-th element
counting from the end. -/
theorem pyIndex_neg {α : Type} (xs : List α) (k : Nat) (hk : 1 ≤ k)
    (hn : k ≤ xs.length) :
    pyIndex xs (-(k : Int)) = xs.get? (xs.length - k) := by
  unfold pyIndex
  have h1 : ¬(0 ≤ -(k : Int)) := by omega
  have h2 : 0 ≤ (xs.length : Int) + -(k : Int) := by omega
  rw [if_neg h1, if_pos h2]
  congr 1
  omega


/-- Lookup after a dict insertion. -/
theorem promptsLookup_dictInsert (ps : List (Int × Prompt)) (k k2 : Int) (v : Prompt) :
    promptsLookup (dictInsert ps k v) k2 =
      if k2 = k then Option.some v else promptsLookup ps k2 := by
  induction ps with
  | nil => simp [dictInsert, promptsLookup]
  | cons a rest ih =>
    obtain ⟨ak, ap⟩ := a
    unfold dictInsert
    by_cases hak : ak = k
    · subst hak
      simp only [if_pos rfl]
      by_cases hk2 : k2 = ak <;> simp [promptsLookup, hk2]
    · simp only [if_neg hak]
      by_cases hk2 : k2 = ak
      · subst hk2
        have hne : ¬(k2 = k) := fun h => hak (h ▸ rfl)
        simp [promptsLookup, hne]
      · simp [promptsLookup, hk2, ih]

/-- Membership after a dict insertion. -/
theorem mem_dictInsert (ps : List (Int × Prompt)) (k : Int) (v : Prompt)
    (kp : Int × Prompt) (h : kp ∈ dictInsert ps k v) :
    kp = (k, v) ∨ kp ∈ ps := by
  induction ps with
  | nil => simpa [dictInsert] using h
  | cons a rest ih =>
    obtain ⟨ak, ap⟩ := a
    unfold dictInsert at h
    by_cases hak : ak = k
    · rw [if_pos hak] at h
      rcases List.mem_cons.mp h with h2 | h2
      · exact Or.inl h2
      · exact Or.inr (List.mem_cons_of_mem _ h2)
    · rw [if_neg hak] at h
      rcases List.mem_cons.mp h with h2 | h2
      · exact Or.inr (h2 ▸ List.mem_cons_self _ _)
      · rcases ih h2 with h3 | h3
        · exact Or.inl h3
        · exact Or.inr (List.mem_cons_of_mem _ h3)

/-- A successful lookup exhibits a member of the association list. -/
theorem promptsLookup_mem (ps : List (Int × Prompt)) (k : Int) (p : Prompt)
    (h : promptsLookup ps k = Option.some p) : (k, p) ∈ ps := by
  induction ps with
  | nil => simp [promptsLookup] at h
  | cons a rest ih =>
    obtain ⟨ak, ap⟩ := a
    unfold promptsLookup at h
    by_cases hak : k = ak
    · subst hak
      simp at h
      exact h ▸ List.mem_cons_self _ _
    · simp [hak] at h
      exact List.mem_cons_of_mem _ (ih h)

/-- Lookup in the prompt table built from the document succeeds exactly
for the declared prompt ids. -/
theorem buildPrompts_isSome (l : List Prompt) (k : Int) :
    (promptsLookup (buildPrompts l) k).isSome = true ↔ ∃ p ∈ l, p.id = k := by
  unfold buildPrompts
  have hgen : ∀ (l2 : List Prompt) (acc : List (Int × Prompt)),
      (promptsLookup (l2.foldl (fun a p => dictInsert a p.id p) acc) k).isSome = true ↔
        ((promptsLookup acc k).isSome = true ∨ ∃ p ∈ l2, p.id = k) := by
    intro l2
    induction l2 with
    | nil => intro acc; simp
    | cons q rest ih =>
      intro acc
      rw [List.foldl_cons, ih]
      rw [promptsLookup_dictInsert]
      by_cases hk : k = q.id
      · subst hk
        constructor
        · intro _; exact Or.inr ⟨q, List.mem_cons_self q rest, rfl⟩
        · intro _; simp
      · simp only [if_neg hk]
        constructor
        · rintro (h | ⟨p, hp, hid⟩)
          · exact Or.inl h
          · exact Or.inr ⟨p, List.mem_cons_of_mem q hp, hid⟩
        · rintro (h | ⟨p, hp, hid⟩)
          · exact Or.inl h
          · rcases List.mem_cons.mp hp with hp2 | hp2
            · exact absurd (hp2 ▸ hid).symm hk
            · exact Or.inr ⟨p, hp2, hid⟩
  rw [hgen l []]
  simp [promptsLookup]

/-- Every entry of the built prompt table is a declared prompt keyed by
its id. -/
theorem mem_buildPrompts (l : List Prompt) (kp : Int × Prompt)
    (h : kp ∈ buildPrompts l) : ∃ p ∈ l, kp = (p.id, p) := by
  unfold buildPrompts at h
  have hgen : ∀ (l2 : List Prompt) (acc : List (Int × Prompt)),
      kp ∈ l2.foldl (fun a p => dictInsert a p.id p) acc →
        kp ∈ acc ∨ ∃ p ∈ l2, kp = (p.id, p) := by
    intro l2
    induction l2 with
    | nil => intro acc h2; exact Or.inl h2
    | cons q rest ih =>
      intro acc h2
      rw [List.foldl_cons] at h2
      rcases ih _ h2 with h3 | ⟨p, hp, hkp⟩
      · rcases mem_dictInsert _ _ _ _ h3 with h4 | h4
        · exact Or.inr ⟨q, List.mem_cons_self q rest, h4⟩
        · exact Or.inl h4
      · exact Or.inr ⟨p, List.mem_cons_of_mem q hp, hkp⟩
  rcases hgen l [] h with h2 | h2
  · simp at h2
  · exact h2

/-- A successful `get_next` returns the sentinel `-1` or the target of one
of the transitions. -/
theorem getNextGo_result (g : Store) (ts : List (Int × List Condition)) (n : Int)
    (h : getNextGo g ts = Except.ok n) :
    n = -1 ∨ ∃ cs, (n, cs) ∈ ts := by
  induction ts with
  | nil =>
    unfold getNextGo at h
    exact Or.inl (by simpa using h.symm)
  | cons tc rest ih =>
    obtain ⟨target, conds⟩ := tc
    unfold getNextGo at h
    cases hc : condsAll g conds with
    | error e => rw [hc] at h; simp at h
    | ok b =>
      rw [hc] at h
      cases b with
      | true =>
        simp at h
        exact Or.inr ⟨conds, h ▸ List.mem_cons_self _ _⟩
      | false =>
        simp at h
        rcases ih h with h2 | ⟨cs, h2⟩
        · exact Or.inl h2
        · exact Or.inr ⟨cs, List.mem_cons_of_mem _ h2⟩

/-- Every entry of the active-response list is one of the raw responses,
keyed by its position in the raw list. -/
theorem activeListGo_mem (g : Store) (rs : List Response) (i : Nat)
    (l : List (Nat × Response)) (h : activeListGo g i rs = Except.ok l) :
    ∀ x ∈ l, x.2 ∈ rs ∧ ∃ j, x.1 = i + j ∧ rs.get? j = Option.some x.2 := by
  induction rs generalizing i l with
  | nil =>
    unfold activeListGo at h
    intro x hx
    simp at h
    subst h
    simp at hx
  | cons r rest ih =>
    unfold activeListGo at h
    intro x hx
    cases hc : condsAll g r.preconditions with
    | error e => rw [hc] at h; simp at h
    | ok b =>
      rw [hc] at h
      cases b with
      | true =>
        cases hrest : activeListGo g (i + 1) rest with
        | error e => rw [hrest] at h; simp [Except.map] at h
        | ok l2 =>
          rw [hrest] at h
          simp [Except.map] at h
          subst h
          rcases List.mem_cons.mp hx with hx2 | hx2
          · subst hx2
            exact ⟨List.mem_cons_self _ _, 0, by simp⟩
          · rcases ih (i + 1) l2 hrest x hx2 with ⟨hmem, j, hj, hget⟩
            exact ⟨List.mem_cons_of_mem _ hmem, j + 1, by omega, by simpa using hget⟩
      | false =>
        rcases ih (i + 1) l h x hx with ⟨hmem, j, hj, hget⟩
        exact ⟨List.mem_cons_of_mem _ hmem, j + 1, by omega, by simpa using hget⟩

/-- Membership in a list after a positional update. -/
theorem mem_list_set {α : Type} (l : List α) (i : Nat) (a x : α)
    (h : x ∈ l.set i a) : x = a ∨ x ∈ l := by
  induction l generalizing i with
  | nil => simp [List.set] at h
  | cons b rest ih =>
    cases i with
    | zero =>
      rcases List.mem_cons.mp h with h2 | h2
      · exact Or.inl h2
      · exact Or.inr (List.mem_cons_of_mem _ h2)
    | succ n =>
      rcases List.mem_cons.mp h with h2 | h2
      · exact Or.inr (h2 ▸ List.mem_cons_self _ _)
      · rcases ih n h2 with h3 | h3
        · exact Or.inl h3
        · exact Or.inr (List.mem_cons_of_mem _ h3)

/-- Effect application only rewrites the `effects` field of a response:
text, preconditions and transitions are untouched. -/
theorem apply_effectsE_transitions (r : Response) (g : Store) :
    (Response.apply_effectsE r g).resp.transitions = r.transitions := rfl

/-- Lookup of the freshly inserted key. -/
theorem lookup_dictInsert_self (ps : List (Int × Prompt)) (k : Int) (v : Prompt) :
    promptsLookup (dictInsert ps k v) k = Option.some v := by
  rw [promptsLookup_dictInsert]
  simp

/-- Dict insertion never invalidates an existing key. -/
theorem isSome_lookup_dictInsert (ps : List (Int × Prompt)) (k : Int) (v : Prompt)
    (t : Int) (h : (promptsLookup ps t).isSome = true) :
    (promptsLookup (dictInsert ps k v) t).isSome = true := by
  rw [promptsLookup_dictInsert]
  split <;> simp [h]

/-- A successful Python indexing returns a member of the list. -/
theorem pyIndex_mem {α : Type} (xs : List α) (i : Int) (a : α)
    (h : pyIndex xs i = Option.some a) : a ∈ xs := by
  unfold pyIndex at h
  split_ifs at h
  · exact List.get?_mem h
  · exact List.get?_mem h

/-- Replacing an existing prompt by one whose responses carry only
transitions already present keeps all transition targets valid. -/
theorem targetsOkP_insert (ps : List (Int × Prompt)) (k : Int) (p p2 : Prompt)
    (hps : targetsOkP ps)
    (hk : promptsLookup ps k = Option.some p)
    (hresp : ∀ r ∈ p2.responses, ∃ r0 ∈ p.responses, r.transitions = r0.transitions) :
    targetsOkP (dictInsert ps k p2) := by
  intro kp hkp r hr t ht
  have hlift : (t.1 = -1 ∨ (promptsLookup ps t.1).isSome = true) →
      t.1 = -1 ∨ (promptsLookup (dictInsert ps k p2) t.1).isSome = true := by
    rintro (h | h)
    · exact Or.inl h
    · exact Or.inr (isSome_lookup_dictInsert ps k p2 t.1 h)
  rcases mem_dictInsert ps k p2 kp hkp with hkp2 | hkp2
  · subst hkp2
    rcases hresp r hr with ⟨r0, hr0, htr⟩
    exact hlift (hps (k, p) (promptsLookup_mem ps k p hk) r0 hr0 t (htr ▸ ht))
  · exact hlift (hps kp hkp2 r hr t ht)

/-- Case analysis of `Dialogue.answerWith`: the prompt table is always
updated with the effect-memoized response written back in place; the
store always becomes the effect-application result; `current_prompt` and
`done` change only on the success path. -/
theorem answerWith_cases (d : Dialogue) (p : Prompt) (oc : Nat × Response) :
    (∃ e, Dialogue.answerWith d p oc =
      ({ d with globals := (Response.apply_effectsE oc.2 d.globals).store,
                prompts := dictInsert d.prompts d.current_prompt
                  { p with responses :=
                      p.responses.set oc.1 (Response.apply_effectsE oc.2 d.globals).resp } },
       Option.some (DlgError.pyErr e))) ∨
    (∃ nxt, Response.get_next (Response.apply_effectsE oc.2 d.globals).resp
        (Response.apply_effectsE oc.2 d.globals).store = Except.ok nxt ∧
      Dialogue.answerWith d p oc =
        ({ d with globals := (Response.apply_effectsE oc.2 d.globals).store,
                  prompts := dictInsert d.prompts d.current_prompt
                    { p with responses :=
                        p.responses.set oc.1 (Response.apply_effectsE oc.2 d.globals).resp },
                  current_prompt := nxt,
                  done := if nxt = -1 then true else d.done }, Option.none)) := by
  rcases hres : Response.apply_effectsE oc.2 d.globals with ⟨resp2, g2, err⟩
  unfold Dialogue.answerWith
  rw [hres]
  cases err with
  | some e => exact Or.inl ⟨e, rfl⟩
  | none =>
    cases hn : Response.get_next resp2 g2 with
    | error e =>
      refine Or.inl ⟨e, ?_⟩
      simp only [hn]
    | ok nxt =>
      refine Or.inr ⟨nxt, rfl, ?_⟩
      simp only [hn]
      by_cases hnn : nxt = -1 <;> simp [hnn]

/-- `answerWith` preserves the session invariant. -/
theorem dlgInv_answerWith (d : Dialogue) (p : Prompt) (oc : Nat × Response)
    (hInv : DlgInv d)
    (hp : promptsLookup d.prompts d.current_prompt = Option.some p)
    (hoc : oc.2 ∈ p.responses) :
    DlgInv (Dialogue.answerWith d p oc).1 := by
  have hresp : ∀ r ∈ p.responses.set oc.1 (Response.apply_effectsE oc.2 d.globals).resp,
      ∃ r0 ∈ p.responses, r.transitions = r0.transitions := by
    intro r hr
    rcases mem_list_set _ _ _ _ hr with hr2 | hr2
    · exact ⟨oc.2, hoc, by rw [hr2, apply_effectsE_transitions]⟩
    · exact ⟨r, hr2, rfl⟩
  have hok : targetsOkP (dictInsert d.prompts d.current_prompt
      { p with responses :=
          p.responses.set oc.1 (Response.apply_effectsE oc.2 d.globals).resp }) :=
    targetsOkP_insert _ _ _ _ hInv.1 hp hresp
  rcases answerWith_cases d p oc with ⟨err, heq⟩ | ⟨nxt, hnxt, heq⟩
  · rw [heq]
    refine ⟨hok, fun _ => ?_⟩
    simp [lookup_dictInsert_self]
  · rw [heq]
    refine ⟨hok, fun hdone => ?_⟩
    simp only at hdone ⊢
    by_cases hnn : nxt = -1
    · simp [hnn] at hdone
    · rcases getNextGo_result _ _ _ hnxt with h2 | ⟨cs, h2⟩
      · exact absurd h2 hnn
      · rw [apply_effectsE_transitions] at h2
        rcases hInv.1 (d.current_prompt, p) (promptsLookup_mem _ _ _ hp) oc.2 hoc
            (nxt, cs) h2 with h3 | h3
        · exact absurd h3 hnn
        · exact isSome_lookup_dictInsert _ _ _ _ h3

/-- A well-formed authoring document yields a session satisfying the
invariant. -/
theorem dlgInv_init (doc : PromptDict) (h : DocWF doc) :
    DlgInv (Dialogue.init doc) := by
  constructor
  · intro kp hkp r hr t ht
    rcases mem_buildPrompts doc.prompts kp hkp with ⟨p, hp, hkp2⟩
    subst hkp2
    rcases h.2 p hp r hr t ht with h2 | h2
    · exact Or.inl h2
    · exact Or.inr ((buildPrompts_isSome doc.prompts t.1).mpr h2)
  · intro _
    exact (buildPrompts_isSome doc.prompts 0).mpr h.1

/-- `answer` preserves the session invariant (on success and on every
error path). -/
theorem dlgInv_answer (d : Dialogue) (ix : Int) (hInv : DlgInv d) :
    DlgInv (Dialogue.answer d ix).1 := by
  unfold Dialogue.answer
  split
  next hdone => exact hInv
  next hdone =>
    split
    next hp => exact hInv
    next p hp =>
      split
      next e hal => exact hInv
      next actives hal =>
        split
        next hpi => exact hInv
        next oc hpi =>
          have hoc : oc.2 ∈ p.responses :=
            (activeListGo_mem d.globals p.responses 0 actives hal oc
              (pyIndex_mem actives ix oc hpi)).1
          exact dlgInv_answerWith d p oc hInv hp hoc

/-- `get_prompt` preserves the session invariant. -/
theorem dlgInv_get_prompt (d : Dialogue) (hInv : DlgInv d) :
    DlgInv (Dialogue.get_prompt d).1 := by
  unfold Dialogue.get_prompt
  by_cases hdone : d.done = false
  · simp only [hdone, if_pos rfl]
    cases hp : promptsLookup d.prompts d.current_prompt with
    | none => exact hInv
    | some p =>
      by_cases hre : p.responses.isEmpty
      · simp only [hre, if_pos rfl]
        exact ⟨hInv.1, fun h => by simp at h⟩
      · simpa [hre] using hInv
  · simpa [hdone] using hInv

/-- On a finished session `get_prompt` changes nothing and returns `None`. -/
theorem get_prompt_done (d : Dialogue) (h : d.done = true) :
    Dialogue.get_prompt d = (d, Except.ok Option.none) := by
  unfold Dialogue.get_prompt
  simp [h]

/-- On a finished session `answer` raises without mutating anything: the
session (store, prompt table, position, flag) is returned unchanged. -/
theorem answer_done (d : Dialogue) (ix : Int) (h : d.done = true) :
    Dialogue.answer d ix = (d, Option.some DlgError.sessionFinished) := by
  unfold Dialogue.answer
  simp [h]

/-- When every condition of every transition evaluates without raising,
`get_next` computes exactly the spec's first-match function. -/
theorem getNextGo_eq_firstMatch (g : Store) (ts : List (Int × List Condition))
    (h : ∀ tc ∈ ts, ∀ c ∈ tc.2, exceptIsOk (Condition.apply c g) = true) :
    getNextGo g ts = Except.ok (firstMatchSpec g ts) := by
  induction ts with
  | nil => rfl
  | cons tc rest ih =>
    obtain ⟨target, conds⟩ := tc
    have hc : ∀ c ∈ conds, exceptIsOk (Condition.apply c g) = true :=
      fun c hcc => h (target, conds) (List.mem_cons_self _ _) c hcc
    have hr : ∀ tc2 ∈ rest, ∀ c ∈ tc2.2, exceptIsOk (Condition.apply c g) = true :=
      fun tc2 h2 c hcc => h tc2 (List.mem_cons_of_mem _ h2) c hcc
    unfold getNextGo firstMatchSpec
    rw [condsAll_ok g conds hc]
    by_cases hall : conds.all (fun c => isOkTrue (Condition.apply c g)) = true
    · simp [hall]
    · simp only [Bool.not_eq_true] at hall
      simp [hall, ih hr]

/-- When every precondition of every response evaluates without raising,
the filtered-response computation equals the spec's filter-and-map. -/
theorem getResponsesGo_eq_availableSpec (g : Store) (rs : List Response)
    (h : ∀ r ∈ rs, ∀ c ∈ r.preconditions, exceptIsOk (Condition.apply c g) = true) :
    getResponsesGo g rs = Except.ok (availableSpec g rs) := by
  induction rs with
  | nil => rfl
  | cons r rest ih =>
    have hc : ∀ c ∈ r.preconditions, exceptIsOk (Condition.apply c g) = true :=
      fun c hcc => h r (List.mem_cons_self _ _) c hcc
    have hr : ∀ r2 ∈ rest, ∀ c ∈ r2.preconditions, exceptIsOk (Condition.apply c g) = true :=
      fun r2 h2 c hcc => h r2 (List.mem_cons_of_mem _ h2) c hcc
    unfold getResponsesGo availableSpec
    rw [condsAll_ok g r.preconditions hc]
    by_cases hall : r.preconditions.all (fun c => isOkTrue (Condition.apply c g)) = true
    · simp only [hall, List.filter_cons_of_pos, List.map_cons]
      rw [ih hr]
      simp [availableSpec, Except.map]
    · simp only [Bool.not_eq_true] at hall
      simp only [hall]
      rw [ih hr]
      simp [availableSpec, List.filter_cons_of_neg, hall]

/-- A one-response dialogue: prompt 0 with a single unconditional response
transitioning to the `-1` sentinel. -/
def r0 : Response := ⟨"ok", [], [], [(-1, [])]⟩

def p0 : Prompt := ⟨0, [("npc", "hi")], [r0]⟩

def d0 : Dialogue := Dialogue.init ⟨[], [p0]⟩

/-- A session that is already finished. -/
def dDone : Dialogue := ⟨store0, [(0, p0)], -1, true⟩

/-- C1 counterexample: the Condition `{variable: x, operation: >, value: null}`
applied to a fresh `defaultdict(int)` store does NOT fail — Python 2 happily
evaluates `0 > None` to `True` — refuting the claim that `apply` fails with a
ValueError for every comparison condition with a null `value`. -/
theorem C1_counterexample :
    Condition.apply ⟨"x", ">", PyVal.none⟩ store0 = Except.ok true := rfl

/-- C1 (amended): `Condition.apply` raises ValueError exactly when the
operation is not `set`/`unset` and the value read from the STORE is `None`;
the condition's own null `value` field is never rejected — a comparison
against it is silently performed using Python 2 mixed-type ordering. -/
theorem C1_condition_null_value (c : Condition) (g : Store) :
    (Condition.apply c g = Except.error PyErr.valueError ↔
      (¬(c.operation = "set" ∨ c.operation = "unset") ∧ g c.var = PyVal.none)) ∧
    (c.operation ∈ ([">", "<", "=", "==", ">=", "<="] : List String) →
      g c.var ≠ PyVal.none → ∃ b, Condition.apply c g = Except.ok b) := by
  refine ⟨cond_valueError_iff c g, ?_⟩
  intro hop hval
  simp only [List.mem_cons, List.mem_singleton, List.not_mem_nil, or_false] at hop
  rcases hop with h | h | h | h | h | h <;> simp [Condition.apply, h, hval]

/-- Witness for C1's amended theorem at a concrete condition and store. -/
theorem C1_witness :
    ∃ b, Condition.apply ⟨"x", ">", PyVal.none⟩ store0 = Except.ok b :=
  (C1_condition_null_value ⟨"x", ">", PyVal.none⟩ store0).2 (by decide) (by decide)

/-- C2 counterexample: on a live session with one active response,
`answer(-1)` succeeds (Python negative indexing) instead of raising the
claimed IndexOutOfRangeError for every negative index. -/
theorem C2_counterexample :
    (Dialogue.answer d0 (-1)).2 = Option.none := rfl

/-- C2 (amended): `answer` on a finished session fails with the
session-finished error without mutating anything, and fails with an index
error exactly when the index is outside `[-n, n)` where `n` is the number
of active responses (indices in `[-n, -1]` are accepted by Python list
indexing). -/
theorem C2_answer_errors (d : Dialogue) (ix : Int) :
    (d.done = true → Dialogue.answer d ix = (d, Option.some DlgError.sessionFinished)) ∧
    (∀ p actives, d.done = false →
      promptsLookup d.prompts d.current_prompt = Option.some p →
      activeList d.globals p.responses = Except.ok actives →
      ((actives.length : Int) ≤ ix ∨ ix < -(actives.length : Int)) →
      Dialogue.answer d ix = (d, Option.some DlgError.indexError)) := by
  constructor
  · intro h
    exact answer_done d ix h
  · intro p actives hdone hp hal hbound
    have hpi : pyIndex actives ix = Option.none :=
      (pyIndex_eq_none_iff actives ix).mpr hbound
    simp [Dialogue.answer, hdone, hp, hal, hpi]

/-- Witness for C2's amended theorem: a finished session rejects `answer 0`,
and a live one-response session rejects `answer 5`. -/
theorem C2_witness :
    Dialogue.answer dDone 0 = (dDone, Option.some DlgError.sessionFinished) ∧
    Dialogue.answer d0 5 = (d0, Option.some DlgError.indexError) :=
  ⟨(C2_answer_errors dDone 0).1 rfl,
   (C2_answer_errors d0 5).2 p0 [(0, r0)] rfl rfl rfl (by decide)⟩

/-- A dialogue whose only response transitions to prompt id 7, which does
not exist in the document. -/
def r3 : Response := ⟨"go", [], [], [(7, [])]⟩

def p3 : Prompt := ⟨0, [("npc", "hi")], [r3]⟩

def d3 : Dialogue := Dialogue.init ⟨[], [p3]⟩

/-- C3 counterexample: after answering a response whose transition targets
an undeclared prompt id, the session is NOT done yet `currentPromptId` is
no longer a valid key of the prompts map — refuting the unconditional
invariant claimed for every Dialogue session. -/
theorem C3_counterexample :
    (Dialogue.answer d3 0).1.done = false ∧
    promptsLookup (Dialogue.answer d3 0).1.prompts
      (Dialogue.answer d3 0).1.current_prompt = Option.none :=
  ⟨rfl, rfl⟩

/-- C3 (amended): for sessions built from a well-formed document (a prompt
with id 0 exists and every transition target is `-1` or a declared prompt
id) the invariant holds: while not done the current prompt id is a valid
key, and it is preserved by `answer` and `currentPrompt`; unconditionally,
once `done` is true it stays true under both operations, and a finished
session is returned completely unchanged by `answer` (no mutation of
`currentPromptId` or the store). -/
theorem C3_session_invariant :
    (∀ doc, DocWF doc → DlgInv (Dialogue.init doc)) ∧
    (∀ d ix, DlgInv d → DlgInv (Dialogue.answer d ix).1) ∧
    (∀ d, DlgInv d → DlgInv (Dialogue.get_prompt d).1) ∧
    (∀ d ix, d.done = true → Dialogue.answer d ix = (d, Option.some DlgError.sessionFinished)) ∧
    (∀ d, d.done = true → Dialogue.get_prompt d = (d, Except.ok Option.none)) ∧
    (∀ d ix, d.done = true → (Dialogue.answer d ix).1.done = true) ∧
    (∀ d, d.done = true → (Dialogue.get_prompt d).1.done = true) :=
  ⟨dlgInv_init, dlgInv_answer, dlgInv_get_prompt, answer_done, get_prompt_done,
   fun d ix h => by rw [answer_done d ix h]; exact h,
   fun d h => by rw [get_prompt_done d h]; exact h⟩

/-- A well-formed document: prompt 0 with a self-loop and a terminal
transition. -/
def docW : PromptDict :=
  ⟨[], [⟨0, [("npc", "hi")], [⟨"ok", [], [], [(0, []), (-1, [])]⟩]⟩]⟩

/-- Witness for C3's amended theorem at a concrete document and session. -/
theorem C3_witness :
    DlgInv (Dialogue.init docW) ∧
    DlgInv (Dialogue.answer (Dialogue.init docW) 0).1 ∧
    Dialogue.answer dDone 0 = (dDone, Option.some DlgError.sessionFinished) := by
  have h1 : DlgInv (Dialogue.init docW) :=
    C3_session_invariant.1 docW (by unfold DocWF; decide)
  exact ⟨h1, C3_session_invariant.2.1 (Dialogue.init docW) 0 h1,
    C3_session_invariant.2.2.2.1 dDone 0 rfl⟩

/-- A dialogue whose entry prompt has no responses (implicitly terminal). -/
def p4 : Prompt := ⟨0, [("npc", "bye")], []⟩

def d4 : Dialogue := Dialogue.init ⟨[], [p4]⟩

/-- C4 counterexample: on a prompt with no responses, the first
`currentPrompt()` call returns the payload and flips `done` as a side
effect, so an immediately repeated call returns `None` — the two results
differ, refuting idempotence of `currentPrompt`. -/
theorem C4_counterexample :
    (Dialogue.get_prompt d4).2 = Except.ok (Option.some [("npc", "bye")]) ∧
    (Dialogue.get_prompt (Dialogue.get_prompt d4).1).2 = Except.ok Option.none ∧
    (Dialogue.get_prompt (Dialogue.get_prompt d4).1).2 ≠ (Dialogue.get_prompt d4).2 := by
  refine ⟨rfl, rfl, fun h => ?_⟩
  have h2 : (Except.ok Option.none : Except DlgError (Option (List (String × String)))) =
      Except.ok (Option.some [("npc", "bye")]) := h
  simp at h2

/-- C4 (amended): `availableResponses` mutates nothing and two consecutive
calls agree; two consecutive `currentPrompt` calls agree whenever the
first call did not flip `done` (i.e. except when it hit a response-less
prompt, where the second call returns `None`). -/
theorem C4_idempotence (d : Dialogue) :
    ((Dialogue.get_responses d).1 = d) ∧
    ((Dialogue.get_responses (Dialogue.get_responses d).1).2 = (Dialogue.get_responses d).2) ∧
    ((Dialogue.get_prompt d).1.done = d.done →
      (Dialogue.get_prompt (Dialogue.get_prompt d).1).2 = (Dialogue.get_prompt d).2) := by
  have h1 : (Dialogue.get_responses d).1 = d := by
    unfold Dialogue.get_responses
    split
    · split
      · rfl
      · split
        · rfl
        · rfl
    · rfl
  refine ⟨h1, by rw [h1], ?_⟩
  intro hd
  by_cases hdone : d.done = false
  · cases hp : promptsLookup d.prompts d.current_prompt with
    | none => simp [Dialogue.get_prompt, hdone, hp]
    | some p =>
      by_cases hre : p.responses.isEmpty
      · exfalso
        have h2 : (Dialogue.get_prompt d).1.done = true := by
          simp [Dialogue.get_prompt, hdone, hp, hre]
        rw [hd] at h2
        rw [h2] at hdone
        simp at hdone
      · simp [Dialogue.get_prompt, hdone, hp, hre]
  · simp only [Bool.not_eq_false] at hdone
    simp [Dialogue.get_prompt, hdone]

/-- Witness for C4's amended theorem on a live session whose prompt has
responses. -/
theorem C4_witness :
    (Dialogue.get_prompt (Dialogue.get_prompt d0).1).2 = (Dialogue.get_prompt d0).2 :=
  (C4_idempotence d0).2.2 rfl

/-- C5 (confirmed): whenever every transition condition evaluates without
raising, `getNextPromptId` returns exactly the spec's first-match result —
the target of the first transition whose condition set is entirely true
(an empty set matching unconditionally), and `-1` when none matches. -/
theorem C5_get_next_first_match (r : Response) (g : Store)
    (h : ∀ tc ∈ r.transitions, ∀ c ∈ tc.2, exceptIsOk (Condition.apply c g) = true) :
    Response.get_next r g = Except.ok (firstMatchSpec g r.transitions) :=
  getNextGo_eq_firstMatch g r.transitions h

/-- The spec's scenario: a first transition gated by a false condition and
an unconditional second transition. -/
def rC5 : Response := ⟨"w", [], [], [(5, [⟨"t", ">", PyVal.int 0⟩]), (6, [])]⟩

/-- Witness for C5 at a concrete response: the gated first transition is
skipped and the unconditional second one is taken. -/
theorem C5_witness :
    Response.get_next rC5 store0 = Except.ok (firstMatchSpec store0 rC5.transitions) ∧
    Response.get_next rC5 store0 = Except.ok 6 :=
  ⟨C5_get_next_first_match rC5 store0 (by decide), rfl⟩

/-- C6 (confirmed): on a non-done session whose current prompt resolves and
whose preconditions all evaluate without raising, `availableResponses`
returns exactly the texts of the responses whose preconditions are all
true, in declared order (the spec-side filter-and-map). -/
theorem C6_available_responses (d : Dialogue) (p : Prompt)
    (hdone : d.done = false)
    (hp : promptsLookup d.prompts d.current_prompt = Option.some p)
    (h : ∀ r ∈ p.responses, ∀ c ∈ r.preconditions,
      exceptIsOk (Condition.apply c d.globals) = true) :
    (Dialogue.get_responses d).2 =
      Except.ok (Option.some (availableSpec d.globals p.responses)) := by
  have hg : Prompt.get_responses p d.globals =
      Except.ok (availableSpec d.globals p.responses) :=
    getResponsesGo_eq_availableSpec d.globals p.responses h
  simp [Dialogue.get_responses, hdone, hp, hg]

/-- An ungated response next to a response gated on `trust >= 5`. -/
def rA : Response := ⟨"always", [], [], [(-1, [])]⟩

def rB : Response := ⟨"gated", [⟨"trust", ">=", PyVal.int 5⟩], [], [(-1, [])]⟩

def p6 : Prompt := ⟨0, [("npc", "choose")], [rA, rB]⟩

def d6 : Dialogue := Dialogue.init ⟨[], [p6]⟩

/-- Witness for C6: with `trust = 0` the gated response is excluded and the
ungated one is returned, in order. -/
theorem C6_witness :
    (Dialogue.get_responses d6).2 =
      Except.ok (Option.some (availableSpec d6.globals p6.responses)) ∧
    (Dialogue.get_responses d6).2 = Except.ok (Option.some ["always"]) :=
  ⟨C6_available_responses d6 p6 rfl rfl (by decide), rfl⟩

/-- C7 (confirmed): a variable absent from the defaults map and not the
target of any applied effect still reads as `0` from the session store —
both right after construction and after any sequence of effect
applications — never an error and never `None`. -/
theorem C7_default_zero (doc : PromptDict) (es : List Effect) (v : String)
    (hd : ∀ kv ∈ doc.defaults, kv.1 ≠ v)
    (he : ∀ e ∈ es, e.var ≠ v) :
    Dialogue.get_globals (Dialogue.init doc) v = PyVal.int 0 ∧
    (applyEffectsGo (Dialogue.init doc).globals es).store v = PyVal.int 0 := by
  have h0 : initStore doc.defaults v = PyVal.int 0 := initStore_absent doc.defaults v hd
  refine ⟨h0, ?_⟩
  rw [applyEffectsGo_other_var es (Dialogue.init doc).globals v he]
  exact h0

def docC7 : PromptDict := ⟨[("a", 5)], []⟩

def esC7 : List Effect := [⟨"b", "set", EValue.none⟩, ⟨"a", "+", EValue.int 2⟩]

/-- Witness for C7 at a concrete document and effect list. -/
theorem C7_witness :
    Dialogue.get_globals (Dialogue.init docC7) "x" = PyVal.int 0 ∧
    (applyEffectsGo (Dialogue.init docC7).globals esC7).store "x" = PyVal.int 0 :=
  C7_default_zero docC7 esC7 "x" (by decide) (by decide)

/-- The spec's `eval:` effect. -/
def e8 : Effect := ⟨"x", "=", EValue.str "eval:2+3*4"⟩

/-- C8 (confirmed): applying `{variable: x, operation: =, value: "eval:2+3*4"}`
to any store invokes the evaluator once, sets `x` to `14`, and memoizes
`14` onto the Effect instance; re-applying the returned instance to any
store does not re-enter the evaluation branch, leaves the instance
unchanged, and again sets `x` to `14`. -/
theorem C8_eval_memoized (g g2 : Store) :
    (Effect.applyE e8 g).err = Option.none ∧
    (Effect.applyE e8 g).evalInvoked = true ∧
    (Effect.applyE e8 g).store "x" = PyVal.int 14 ∧
    (Effect.applyE e8 g).eff.value = EValue.int 14 ∧
    (Effect.applyE (Effect.applyE e8 g).eff g2).err = Option.none ∧
    (Effect.applyE (Effect.applyE e8 g).eff g2).evalInvoked = false ∧
    (Effect.applyE (Effect.applyE e8 g).eff g2).store "x" = PyVal.int 14 ∧
    (Effect.applyE (Effect.applyE e8 g).eff g2).eff = (Effect.applyE e8 g).eff := by
  refine ⟨?_, ?_, ?_, ?_, ?_, ?_, ?_, ?_⟩ <;> rfl

/-- `answerWith` can only report expression errors: never an index error. -/
theorem answerWith_ne_indexError (d : Dialogue) (p : Prompt) (oc : Nat × Response) :
    (Dialogue.answerWith d p oc).2 ≠ Option.some DlgError.indexError := by
  rcases answerWith_cases d p oc with ⟨e, heq⟩ | ⟨nxt, hnxt, heq⟩ <;> rw [heq] <;> simp

/-- C9 (confirmed): on a live session with `n ≥ 1` active responses,
`answer (-k)` with `1 ≤ k ≤ n` does not raise an index error: Python
negative indexing selects the `k`-th active response counting from the
end, and the session proceeds by applying that response's effects and
following its transitions (`Dialogue.answerWith`). -/
theorem C9_negative_index (d : Dialogue) (p : Prompt)
    (actives : List (Nat × Response)) (k : Nat)
    (hdone : d.done = false)
    (hp : promptsLookup d.prompts d.current_prompt = Option.some p)
    (ha : activeList d.globals p.responses = Except.ok actives)
    (hk : 1 ≤ k) (hn : k ≤ actives.length) :
    ∃ oc, actives.get? (actives.length - k) = Option.some oc ∧
      Dialogue.answer d (-(k : Int)) = Dialogue.answerWith d p oc ∧
      (Dialogue.answer d (-(k : Int))).2 ≠ Option.some DlgError.indexError := by
  have hlt : actives.length - k < actives.length := by omega
  obtain ⟨oc, hoc⟩ : ∃ oc, actives.get? (actives.length - k) = Option.some oc := by
    rw [List.get?_eq_get hlt]
    exact ⟨_, rfl⟩
  have hpi : pyIndex actives (-(k : Int)) = Option.some oc := by
    rw [pyIndex_neg actives k hk hn]
    exact hoc
  have hans : Dialogue.answer d (-(k : Int)) = Dialogue.answerWith d p oc := by
    simp [Dialogue.answer, hdone, hp, ha, hpi]
  refine ⟨oc, hoc, hans, ?_⟩
  rw [hans]
  exact answerWith_ne_indexError d p oc

/-- Witness for C9: on the one-response session, `answer (-1)` selects the
single active response. -/
theorem C9_witness :
    ∃ oc, ([(0, r0)] : List (Nat × Response)).get?
        (([(0, r0)] : List (Nat × Response)).length - 1) = Option.some oc ∧
      Dialogue.answer d0 (-((1 : Nat) : Int)) = Dialogue.answerWith d0 p0 oc ∧
      (Dialogue.answer d0 (-((1 : Nat) : Int))).2 ≠ Option.some DlgError.indexError :=
  C9_negative_index d0 p0 [(0, r0)] 1 rfl rfl rfl (by decide) (by decide)

/-- A response whose precondition is initially true and whose effect
assigns a null value to `x`. -/
def e10 : Effect := ⟨"x", "=", EValue.none⟩

def r10 : Response := ⟨"poison", [⟨"x", "<=", PyVal.int 0⟩], [e10], [(0, [])]⟩

def p10 : Prompt := ⟨0, [("npc", "hi")], [r10]⟩

def d10 : Dialogue := Dialogue.init ⟨[], [p10]⟩

/-- C10 counterexample: a store created by a Dialogue session CAN hold
`None` — an Effect with operation `=` and a null `value` writes `None` —
and the ValueError branch of `Condition.apply` is then reachable, both
directly and through `availableResponses` on the next turn. -/
theorem C10_counterexample :
    (Dialogue.answer d10 0).1.globals "x" = PyVal.none ∧
    Condition.apply ⟨"x", ">", PyVal.int 1⟩ (Dialogue.answer d10 0).1.globals
      = Except.error PyErr.valueError ∧
    (Dialogue.get_responses (Dialogue.answer d10 0).1).2
      = Except.error (DlgError.pyErr PyErr.valueError) :=
  ⟨rfl, rfl, rfl⟩

/-- Helper: a successful mutation with an int operand (or a non-`=`
operation) never writes `None`. -/
theorem pyMutation_ok_int (op : String) (v cur newv : PyVal)
    (hv : v ≠ PyVal.none ∨ op ≠ "=")
    (h : pyMutation op v cur = Except.ok newv) : newv ≠ PyVal.none := by
  unfold pyMutation at h
  split_ifs at h with h1 h2 h3 h4 h5
  · cases cur <;> cases v <;> simp at h
    subst h
    simp
  · cases cur <;> cases v <;> simp at h
    subst h
    simp
  · rcases hv with hv | hv
    · simp at h
      subst h
      exact hv
    · exact absurd h3 hv
  · simp at h
    subst h
    simp
  · simp at h
    subst h
    simp

/-- Helper: the mutation step preserves an all-int store when the operand
is an int or the operation is not `=`. -/
theorem mutStep_allInt (e : Effect) (v : PyVal) (g : Store) (ev : Bool)
    (hg : storeAllInt g) (hv : v ≠ PyVal.none ∨ e.operation ≠ "=") :
    storeAllInt (mutStep e v g ev).store := by
  unfold mutStep
  split
  next newv hm =>
    have hnv := pyMutation_ok_int e.operation v (g e.var) newv hv hm
    intro w
    show (if w = e.var then newv else g w) ≠ PyVal.none
    split
    · exact hnv
    · exact hg w
  next er hm => exact hg

/-- C10 (amended): the error branch inspects the store's value, not the
Condition's `value` field; so long as no applied Effect has operation `=`
together with a null `value`, every store value remains an int — the
initial store is all-int, effect application preserves all-int-ness, and
on an all-int store the ValueError branch is unreachable. -/
theorem C10_store_ints :
    (∀ defaults, storeAllInt (initStore defaults)) ∧
    (∀ (g : Store) (e : Effect), storeAllInt g →
      ¬(e.operation = "=" ∧ e.value = EValue.none) →
      storeAllInt (Effect.applyE e g).store) ∧
    (∀ (g : Store) (c : Condition), storeAllInt g →
      Condition.apply c g ≠ Except.error PyErr.valueError) := by
  refine ⟨initStore_allInt, ?_, ?_⟩
  · intro g e hg hne
    unfold Effect.applyE
    cases hev : e.value with
    | int n => exact mutStep_allInt e (PyVal.int n) g false hg (Or.inl (by simp))
    | none =>
      have hop : e.operation ≠ "=" := fun h2 => hne ⟨h2, hev⟩
      exact mutStep_allInt e PyVal.none g false hg (Or.inr hop)
    | str s =>
      by_cases hsw : strStarts s "eval:" = true
      · simp only [hsw, if_true]
        cases hpe : pyEval g (strDrop s 5) with
        | some n =>
          exact mutStep_allInt { e with value := EValue.int n } (PyVal.int n) g true hg
            (Or.inl (by simp))
        | none => exact hg
      · simp only [Bool.not_eq_true] at hsw
        simp only [hsw, Bool.false_eq_true, if_false]
        cases hgs : g s with
        | int n =>
          exact mutStep_allInt { e with value := EValue.int n } (PyVal.int n) g false hg
            (Or.inl (by simp))
        | none => exact absurd hgs (hg s)
  · intro g c hg h
    rw [cond_valueError_iff] at h
    exact hg c.var h.2

/-- Witness for C10's amended theorem at a concrete store, effect and
condition. -/
theorem C10_witness :
    Condition.apply ⟨"x", ">", PyVal.int 1⟩ store0 ≠ Except.error PyErr.valueError ∧
    storeAllInt (Effect.applyE ⟨"y", "set", EValue.none⟩ store0).store :=
  ⟨C10_store_ints.2.2 store0 ⟨"x", ">", PyVal.int 1⟩ (fun v => by simp [store0]),
   C10_store_ints.2.1 store0 ⟨"y", "set", EValue.none⟩ (fun v => by simp [store0])
     (by decide)⟩
